import Mathlib

/-!
Verification development for the Grylang repository (hakeris1010/Grylang),
component Grylloparse: the RegLex grammar compiler (`src/Grylloparse/src/reglex.cpp`)
and the regex-driven streaming lexer (`src/Grylloparse/src/lexer.cpp`).

The C++ code is shallowly embedded:
* `std::string` buffers become `List Char` with explicit offsets mirroring
  the raw pointers `bufferPointer` / `bufferEnd` of `LexerImpl`;
* the input `std::istream` becomes a `List Char` of the not-yet-read bytes,
  with `rdr.eof()` modelled as "fewer bytes were available than requested";
* the master `std::regex` of a compiled lexicon is an ordered alternation of
  character-class atoms (`\w+`, `[;+]`, `\s+`, `.+`, ...), which is exactly the
  shape the RegLex compiler emits for the grammars in the spec scenarios;
  ECMAScript `regex_search` semantics for such a pattern are: leftmost starting
  position wins, at that position the first alternative that can match wins,
  and a `+`-repetition is greedy;
* loops become fuel-indexed structural recursion (`none` = fuel exhausted),
  so every definition evaluates by `decide` / `rfl`.
-/

set_option maxRecDepth 100000

namespace Grylang

/- ========================================================================
   Character classes used by the compiled master regexes of the spec
   scenarios (ECMAScript semantics of std::regex).
   ======================================================================== -/

/-- ECMAScript `\w`: ASCII letters, digits and underscore. -/
def isWordChar (c : Char) : Bool :=
  c.isAlpha || c.isDigit || c = '_'

/-- ECMAScript `\s`: space, tab, LF, VT, FF, CR (ASCII part). -/
def isSpaceChar (c : Char) : Bool :=
  c = ' ' || c = '\t' || c = '\n' || c = '\x0b' || c = '\x0c' || c = '\r'

/-- ECMAScript `.`: any character except line terminators. -/
def isDotChar (c : Char) : Bool :=
  !(c = '\n' || c = '\r' || c.val = 0x2028 || c.val = 0x2029)

/- ========================================================================
   The master pattern as an ordered alternation of class atoms.
   Each top-level capture group of the compiled regex is one alternative:
   a character class, either repeated greedily (`X+`) or matching one char.
   ======================================================================== -/

/-- One top-level alternative (capture group) of the master regex. -/
structure AltPat where
  cls : Char → Bool
  rep : Bool

/-- Length of the maximal run of `cls`-characters at the head of `l`
(greedy matching of `X+`). -/
def runLen (cls : Char → Bool) : List Char → Nat
  | [] => 0
  | c :: rest => if cls c then runLen cls rest + 1 else 0

/-- Match one alternative at the head of `l`: `none` if the first character
is not in the class, otherwise the greedy match length. -/
def altMatchLen (a : AltPat) (l : List Char) : Option Nat :=
  match l with
  | [] => none
  | c :: _ => if a.cls c then some (if a.rep then runLen a.cls l else 1) else none

/-- First alternative (0-based index, as the lexer's `i - 1`) matching at the
head of `l`, with its match length.  Ordered alternation: the first listed
alternative that matches wins (ECMAScript `|`). -/
def firstAlt (alts : List AltPat) (l : List Char) : Option (Nat × Nat) :=
  match alts with
  | [] => none
  | a :: rest =>
    match altMatchLen a l with
    | some len => some (0, len)
    | none =>
      match firstAlt rest l with
      | some (g, len) => some (g + 1, len)
      | none => none

/-- `std::regex_search` over the window `l`: the leftmost position where some
alternative matches; returns `(position, group index, match length)`. -/
def searchFrom (alts : List AltPat) : List Char → Option (Nat × Nat × Nat)
  | [] => none
  | c :: rest =>
    match firstAlt alts (c :: rest) with
    | some (g, len) => some (0, g, len)
    | none =>
      match searchFrom alts rest with
      | some (p, g, len) => some (p + 1, g, len)
      | none => none

/- ========================================================================
   RegLex data as consumed by the lexer (reglex.hpp, semantic view).
   `alts` is the ordered list of top-level capture groups of
   `fullLanguageRegex`; the remaining fields are the RegLexData fields
   the tokenizer reads.
   ======================================================================== -/

/-- The lexer-side view of `RegLexData`: the master regex (as its ordered
capture-group alternatives) plus the group bookkeeping fields. -/
structure RegLexSem where
  alts : List AltPat
  tokenTypeIDs : List Nat
  spaceRuleIndex : Nat
  errorRuleIndex : Nat
  useFallbackErrorRule : Bool

/- ========================================================================
   LexerImpl state (lexer.cpp).
   ======================================================================== -/

/-- State of one `LexerImpl`: the unread stream, the working buffer and the
offset forms of `bufferPointer` / `bufferEnd`, the `endOfStream` flag and the
`StreamStats` line counters.  `bufSize` is `LexerImpl::BUFFER_SIZE` (5 in the
source; kept as a field because the buffer-size claims compare runs that
differ only in this constant). -/
structure LexState where
  bufSize : Nat
  input : List Char
  buffer : List Char
  bufPos : Nat
  bufEnd : Nat
  endOfStream : Bool
  lineCount : Nat
  posInLine : Nat
deriving Repr, DecidableEq

/-- Initial state: `buffer = std::string(BUFFER_SIZE, '\0')`,
`bufferPointer = bufferEnd = &buffer[0]`. -/
def initLexState (bufSize : Nat) (input : List Char) : LexState :=
  ⟨bufSize, input, List.replicate bufSize '\x00', 0, 0, false, 0, 0⟩

/-- Overwrite `buf` from offset `start` with `chunk` (the `rdr.read` write). -/
def writeAt (buf : List Char) (start : Nat) (chunk : List Char) : List Char :=
  buf.take start ++ chunk ++ buf.drop (start + chunk.length)

/-- `LexerImpl::updateBuffer(start)` (lexer.cpp:170-207).  Reads
`buffer.size() - start` bytes at offset `start` when the buffer is exhausted
or `start` is nonzero; `rdr.eof()` is modelled as "fewer bytes available than
requested".  Returns `(read-something?, new state)`. -/
def updateBuffer (s : LexState) (start : Nat) : Bool × LexState :=
  if s.endOfStream then (false, s)
  else if s.bufPos ≥ s.bufEnd || start ≠ 0 then
    let start := if start ≥ s.buffer.length then 0 else start
    let req := s.buffer.length - start
    let chunk := s.input.take req
    let count := chunk.length
    let eos := decide (s.input.length < req)
    if count = 0 then (false, { s with endOfStream := eos })
    else (true, { s with
      input := s.input.drop count,
      buffer := writeAt s.buffer start chunk,
      bufPos := start,
      bufEnd := start + count,
      endOfStream := eos })
  else (true, s)

/-- `LexerImpl::updateLineStats` (lexer.cpp:211-218).  Defined as in the
source; note that no tokenizing path of lexer.cpp ever calls it, so the
`StreamStats` counters stay at `(0, 0)`. -/
def updateLineStats (s : LexState) (c : Char) : LexState :=
  if c = '\n' then { s with lineCount := s.lineCount + 1, posInLine := 0 }
  else { s with posInLine := s.posInLine + 1 }

/- ========================================================================
   Tokens and tokenizer results.
   ======================================================================== -/

/-- `LexicToken` (lexer.hpp): id plus the matched data. -/
structure LexTok where
  id : Int
  data : List Char
deriving Repr, DecidableEq

/-- Outcome of one `getNextTokenPriv_Regexed` call: a good token,
`TOKEN_END_OF_FILE`, or one of the two `throwError` sites.  `lexError`
carries the `StreamStats` values interpolated into the thrown message
(`"[line:pos]: Invalid token."`) together with the error-group match text
observed at the throw site. -/
inductive LexResult where
  | good (tok : LexTok)
  | endOfFile
  | lexError (lineCount posInLine : Nat) (matched : List Char)
  | regexFail (lineCount posInLine : Nat)
deriving Repr, DecidableEq

/-- The current search window `[bufferPointer, bufferEnd)`. -/
def window (s : LexState) : List Char :=
  (s.buffer.take s.bufEnd).drop s.bufPos

/- ========================================================================
   getNextTokenPriv_Regexed (lexer.cpp:249-464): the synchronous
   single-token extractor.
   ======================================================================== -/

/-- Outcome of the inner matching loop (lexer.cpp:279-387): the function
returned (`finished`), a token match reached the buffer end before the stream
ended (`rebuffer`, carrying the absolute match start and length, with
`bufferPointer` left unchanged as in the source), or the window was exhausted
(`exhausted`, also covering the no-match refetch path that sets
`bufferPointer = bufferEnd`). -/
inductive InnerStep where
  | finished (r : LexResult) (s : LexState)
  | rebuffer (s : LexState) (mStart mLen : Nat)
  | exhausted (s : LexState)

/-- The inner `while( bufferPointer < bufferEnd && !reBufferNeeded )` loop of
`getNextTokenPriv_Regexed`.  `bufWasExt` is the enclosing `bufferWasExtended`
flag (it selects the accept path that shrinks the grown buffer).  Fuel only
guards termination; a whitespace skip strictly advances `bufPos`, so fuel
`bufEnd - bufPos + 1` always suffices. -/
def innerMatchLoop (lex : RegLexSem) (bufWasExt : Bool) :
    Nat → LexState → InnerStep
  | 0, s => InnerStep.exhausted s
  | fuel + 1, s =>
    if s.bufPos < s.bufEnd then
      match searchFrom lex.alts (window s) with
      | none =>
        -- no match: with a fallback group this is a broken-regex error,
        -- otherwise refetch after discarding the window
        if lex.useFallbackErrorRule then
          InnerStep.finished (LexResult.regexFail s.lineCount s.posInLine) s
        else InnerStep.exhausted { s with bufPos := s.bufEnd }
      | some (p, g, len) =>
        if g = lex.spaceRuleIndex then
          -- whitespace: skip past the match, stay in the loop
          innerMatchLoop lex bufWasExt fuel { s with bufPos := s.bufPos + p + len }
        else
          let tokEnd := s.bufPos + p + len
          if tokEnd ≥ s.bufEnd && !s.endOfStream then
            InnerStep.rebuffer s (s.bufPos + p) len
          else if lex.useFallbackErrorRule && g = lex.errorRuleIndex then
            InnerStep.finished
              (LexResult.lexError s.lineCount s.posInLine
                ((s.buffer.drop (s.bufPos + p)).take len)) s
          else
            -- accept the token
            let id : Int := (lex.tokenTypeIDs.getD g 0 : Nat)
            if bufWasExt then
              -- buffer was grown: move the data out and reset the buffer
              -- to nominal size (lexer.cpp:338-370)
              let tokp := s.bufPos + p
              let remLen := s.bufEnd - tokEnd
              let remainder := (s.buffer.take s.bufEnd).drop tokEnd
              let remBuff := remainder ++ List.replicate (s.bufSize - remLen) '\x00'
              InnerStep.finished
                (LexResult.good ⟨id, (s.buffer.drop tokp).take len⟩)
                { s with buffer := remBuff, bufPos := 0, bufEnd := remLen }
            else
              InnerStep.finished
                (LexResult.good ⟨id, (s.buffer.drop (s.bufPos + p)).take len⟩)
                { s with bufPos := tokEnd }
    else InnerStep.exhausted s

/-- The outer `while(true)` loop of `getNextTokenPriv_Regexed`
(lexer.cpp:273-461): run the matching loop, then do the
rebuffering/extension bookkeeping (lexer.cpp:400-443) and fetch more data.
`none` means the fuel ran out. -/
def outerLoop (lex : RegLexSem) :
    Nat → LexState → Bool → Option (LexResult × LexState)
  | 0, _, _ => none
  | fuel + 1, s, bufWasExt =>
    match innerMatchLoop lex bufWasExt (s.bufEnd - s.bufPos + 1) s with
    | InnerStep.finished r s' => some (r, s')
    | step =>
      let (rebuf, s1, fetchOffset, ext) :=
        match step with
        | InnerStep.rebuffer s' mStart mLen =>
          let curTokStart := mStart
          if mLen > s'.buffer.length - s'.bufSize / 2 then
            -- token longer than buffer minus half a chunk: extend the buffer
            if curTokStart > 0 then
              let tokBytes := (s'.buffer.drop curTokStart).take mLen
              let tmp := tokBytes ++
                List.replicate (s'.buffer.length + s'.bufSize / 2 - mLen) '\x00'
              (true, { s' with buffer := tmp }, mLen, true)
            else
              (true,
                { s' with buffer :=
                    s'.buffer ++ List.replicate (s'.bufSize / 2) '\x00' },
                mLen, true)
          else if curTokStart > 0 then
            -- no resize: shift the open token to the buffer start
            let tokBytes := (s'.buffer.drop curTokStart).take mLen
            (true, { s' with buffer := tokBytes ++ s'.buffer.drop mLen },
              mLen, bufWasExt)
          else (true, s', mLen, bufWasExt)
        | InnerStep.exhausted s' => (false, s', 0, bufWasExt)
        | InnerStep.finished _ s' => (false, s', 0, bufWasExt)
      match updateBuffer s1 fetchOffset with
      | (true, s2) =>
        let s3 := if rebuf || ext then { s2 with bufPos := 0 } else s2
        outerLoop lex fuel s3 ext
      | (false, s2) =>
        if !ext then some (LexResult.endOfFile, s2)
        else
          let s3 := if rebuf then { s2 with bufEnd := fetchOffset } else s2
          let s4 := if rebuf || ext then { s3 with bufPos := 0 } else s3
          outerLoop lex fuel s4 ext

/-- `LexerImpl::getNextTokenPriv_Regexed` (lexer.cpp:249-464): initial buffer
update and end-of-data check, then the matching loop. -/
def getNextTokenPriv_Regexed (lex : RegLexSem) (s : LexState) (fuel : Nat) :
    Option (LexResult × LexState) :=
  match updateBuffer s 0 with
  | (upd, s0) =>
    if !upd && s0.bufPos ≥ s0.bufEnd then some (LexResult.endOfFile, s0)
    else outerLoop lex fuel s0 false

/-- The synchronous pull driver: `Lexer::getNextToken` called repeatedly
until it reports a non-token result (`return ret >= 0` in lexer.cpp:740).
Collects the good tokens in order together with the terminating result. -/
def tokenizeSync (lex : RegLexSem) (callFuel : Nat) :
    Nat → LexState → Option (List LexTok × LexResult)
  | 0, _ => none
  | fuel + 1, s =>
    match getNextTokenPriv_Regexed lex s callFuel with
    | none => none
    | some (LexResult.good t, s') =>
      match tokenizeSync lex callFuel fuel s' with
      | some (ts, r) => some (t :: ts, r)
      | none => none
    | some (r, _) => some ([], r)

/- ========================================================================
   The concrete lexicons of the spec scenarios, as the RegLex compiler
   produces them (see `checkAndAssignLexicProperties` below: one capture
   group per rule in declaration order, then the whitespace group `\s+`,
   then the fallback error group `(.+)`).
   ======================================================================== -/

/-- Scenario A/B/C grammar `<ident> := "\w+"; <operator> := "[;+]";`
compiled: master regex `(\w+)|([;+])|(\s+)|(.+)` with
`tokenTypeIDs = [1, 2]`, `spaceRuleIndex = 2`, `errorRuleIndex = 3`. -/
def scenarioALex : RegLexSem :=
  ⟨[⟨isWordChar, true⟩, ⟨fun c => c = ';' || c = '+', false⟩,
    ⟨isSpaceChar, true⟩, ⟨isDotChar, true⟩], [1, 2], 2, 3, true⟩

/-- Scenario D grammar `<ident> := "[abc]+";` compiled: master regex
`([abc]+)|(\s+)|(.+)` with `tokenTypeIDs = [1]`, `spaceRuleIndex = 1`,
`errorRuleIndex = 2`. -/
def scenarioDLex : RegLexSem :=
  ⟨[⟨fun c => c = 'a' || c = 'b' || c = 'c', true⟩,
    ⟨isSpaceChar, true⟩, ⟨isDotChar, true⟩], [1], 1, 2, true⟩

/- ========================================================================
   runner_dedicatedIteration (lexer.cpp:471-667): the iterative producer
   used by start() (LexerImpl sets useDedicatedLoopyTokenizer = true,
   so setFunctions() picks this runner).
   ======================================================================== -/

/-- Outcome of the `cregex_iterator` loop of `runner_dedicatedIteration`
(lexer.cpp:502-602).  `cont` carries the tokens pushed by this pass, the
rebuffer mode (`0` none, `1` = REFETCH_NEEDED, `2` = TOKEN_AT_THE_END),
the pending `fetchOffset` and the updated `bufferWasExtended` flag; `threw`
is the `throwError` call in the error-group branch. -/
inductive RInner where
  | cont (pushed : List LexTok) (s : LexState) (rebuf : Nat)
      (fetchOffset : Nat) (ext : Bool)
  | threw (pushed : List LexTok) (r : LexResult) (s : LexState)
deriving Repr, DecidableEq

/-- The match-iterator loop of `runner_dedicatedIteration`.  `cursor` is the
position of the next `cregex_iterator` search (matches are iterated from the
`bufferPointer` the loop started at); accepted tokens are collected in order.
In the grown-buffer accept branch (lexer.cpp:567-587) the source moves the
whole buffer into the token, truncates it to the match length, and copies the
remainder into a fresh nominal-size buffer, leaving `bufferPointer`/`bufferEnd`
pointing into the old storage until the following `updateBuffer`; the offsets
are kept unchanged here accordingly. -/
def runnerInner (lex : RegLexSem) (ext : Bool) :
    Nat → LexState → Nat → RInner
  | 0, s, _ => RInner.cont [] s 0 0 ext
  | fuel + 1, s, cursor =>
    match searchFrom lex.alts ((s.buffer.take s.bufEnd).drop cursor) with
    | none => RInner.cont [] s 0 0 ext
    | some (p, g, len) =>
      let mStart := cursor + p
      let tokEnd := mStart + len
      if g = lex.spaceRuleIndex then
        -- whitespace: skip, iterate to the next match
        runnerInner lex ext fuel s tokEnd
      else if tokEnd ≥ s.bufEnd && !s.endOfStream then
        -- token reached the buffer end: rebuffer, bufferPointer moves to
        -- the match start (lexer.cpp:540-542); the pending
        -- `fetchOffset = tokEnd - bufferPointer` is the match length
        RInner.cont [] { s with bufPos := mStart } 2 len ext
      else if lex.useFallbackErrorRule && g = lex.errorRuleIndex then
        RInner.threw []
          (LexResult.lexError s.lineCount s.posInLine
            ((s.buffer.drop mStart).take len)) s
      else
        let id : Int := (lex.tokenTypeIDs.getD g 0 : Nat)
        if ext then
          -- grown buffer: token = whole buffer truncated to the match length;
          -- remainder moved into a fresh nominal buffer; REFETCH_NEEDED
          let tok : LexTok := ⟨id, s.buffer.take len⟩
          let remLen := s.bufEnd - tokEnd
          let remainder := (s.buffer.take s.bufEnd).drop tokEnd
          let remBuff := remainder ++ List.replicate (s.bufSize - remLen) '\x00'
          RInner.cont [tok] { s with buffer := remBuff } 1 remLen false
        else
          let tok : LexTok := ⟨id, (s.buffer.drop mStart).take len⟩
          match runnerInner lex ext fuel s tokEnd with
          | RInner.cont ps s' rb fo e => RInner.cont (tok :: ps) s' rb fo e
          | RInner.threw ps r s' => RInner.threw (tok :: ps) r s'

/-- Result of a producer run: either the runner returned (stream drained or
trailing data dropped), or it threw out of the matching loop. -/
inductive RunOut where
  | done (pushed : List LexTok) (s : LexState)
  | threw (pushed : List LexTok) (r : LexResult) (s : LexState)
deriving Repr, DecidableEq

/-- The TOKEN_AT_THE_END rebuffering block of `runner_dedicatedIteration`
(lexer.cpp:607-648): `tokLen` is the open token's length
(`fetchOffset = tokEnd - bufferPointer`, with `bufferPointer` at the match
start); the buffer is extended when the token exceeds
`buffer.size() - BUFFER_SIZE/2`, otherwise the token is shifted to the
buffer start.  Returns the new state, the fetch offset and the
`bufferWasExtended` flag. -/
def rebufferTokenAtEnd (s' : LexState) (tokLen : Nat) (ext0 : Bool) :
    LexState × Nat × Bool :=
  if tokLen > s'.buffer.length - s'.bufSize / 2 then
    if tokLen > 0 then
      let tokBytes := (s'.buffer.drop s'.bufPos).take tokLen
      let grown := tokBytes ++
        List.replicate (s'.buffer.length + s'.bufSize / 2 - tokLen) '\x00'
      ({ s' with buffer := grown }, tokLen, true)
    else
      let grown := s'.buffer ++ List.replicate (s'.bufSize / 2) '\x00'
      ({ s' with buffer := grown }, tokLen, true)
  else if tokLen > 0 then
    let tokBytes := (s'.buffer.drop s'.bufPos).take tokLen
    let shifted := tokBytes ++ s'.buffer.drop tokLen
    ({ s' with buffer := shifted }, tokLen, ext0)
  else (s', tokLen, ext0)

/-- The main `while( ++bufferUpdates )` loop of `runner_dedicatedIteration`
(lexer.cpp:492-667) with the rebuffer/extend bookkeeping of
lexer.cpp:607-666.  `none` = fuel exhausted (the source loop can in fact
run forever, re-emitting the same buffer, when a whitespace match ends
exactly at the buffer end before the stream has ended). -/
def runnerLoop (lex : RegLexSem) :
    Nat → LexState → Bool → List LexTok → Option RunOut
  | 0, _, _, _ => none
  | fuel + 1, s, bufWasExt, acc =>
    match runnerInner lex bufWasExt (s.bufEnd - s.bufPos + 1) s s.bufPos with
    | RInner.threw ps r s' => some (RunOut.threw (acc ++ ps) r s')
    | RInner.cont ps s' rebuf fetchOffset ext0 =>
      let acc := acc ++ ps
      let (s1, fetchOffset, ext) :=
        if rebuf = 2 then rebufferTokenAtEnd s' fetchOffset ext0
        else (s', fetchOffset, ext0)
      match updateBuffer s1 fetchOffset with
      | (true, s2) =>
        let s3 := if rebuf ≠ 0 || ext then { s2 with bufPos := 0 } else s2
        runnerLoop lex fuel s3 ext acc
      | (false, s2) =>
        if !ext then some (RunOut.done acc s2)
        else
          let s3 := if rebuf ≠ 0 then { s2 with bufEnd := fetchOffset } else s2
          let s4 := if rebuf ≠ 0 || ext then { s3 with bufPos := 0 } else s3
          runnerLoop lex fuel s4 ext acc

/-- `runner_dedicatedIteration` (lexer.cpp:471-667): initial buffer update,
then the producing loop.  Returns the tokens pushed to the queue in order
together with how the run ended. -/
def runnerDedicated (lex : RegLexSem) (s : LexState) (fuel : Nat) :
    Option RunOut :=
  match updateBuffer s 0 with
  | (false, s0) => some (RunOut.done [] s0)
  | (true, s0) => runnerLoop lex fuel s0 false []

/- ========================================================================
   The asynchronous channel: BlockingQueue, start(), getNextToken()
   (lexer.cpp:704-741, gryltools/blockingqueue.hpp).
   ======================================================================== -/

/-- Modelled from the spec: `LexicToken::END_OF_STREAM_TOKEN` is used by
lexer.cpp:714/733 but its definition is not under src/ (the lexer.hpp
snapshot lacks the reserved-id constants).  The spec reserves the sentinel
ids outside the grammar-defined ids, which are non-negative rule ids, so it
is modelled as a negative constant. -/
def endOfStreamTokenId : Int := -2

/-- The END_OF_STREAM sentinel pushed by `start()` (lexer.cpp:714):
`LexicToken( END_OF_STREAM_TOKEN, std::string() )`. -/
def eosToken : LexTok := ⟨endOfStreamTokenId, []⟩

/-- A `LexerImpl` in blocking-queue mode: the scanner state, the FIFO
contents (front = next pop) and the `running` flag. -/
structure AsyncLexer where
  st : LexState
  queue : List LexTok
  running : Bool
deriving Repr, DecidableEq

/-- Outcome of `LexerImpl::start()` (lexer.cpp:704-717): it either returns
normally, or the exception thrown by the runner propagates out of it.  In
the exception case the `running = false` assignment and the sentinel push
are skipped. -/
inductive StartOut where
  | ret (a : AsyncLexer)
  | exn (a : AsyncLexer) (r : LexResult)
deriving Repr, DecidableEq

/-- `LexerImpl::start()` for a blocking-queue lexer: no-op when already
running, otherwise run the whole production loop on the calling thread
(no worker thread is spawned anywhere in lexer.cpp), then push exactly one
END_OF_STREAM sentinel and clear `running`. -/
def startBQ (lex : RegLexSem) (a : AsyncLexer) (fuel : Nat) :
    Option StartOut :=
  if a.running then some (StartOut.ret a)
  else
    match runnerDedicated lex a.st fuel with
    | none => none
    | some (RunOut.done pushed s') =>
      some (StartOut.ret ⟨s', a.queue ++ pushed ++ [eosToken], false⟩)
    | some (RunOut.threw pushed r s') =>
      some (StartOut.exn ⟨s', a.queue ++ pushed, true⟩ r)

/-- Result of a `getNextToken` call in blocking-queue mode
(lexer.cpp:725-734): `noData` is the `return false` guard, `got b tok a`
is a completed pop (with `b = (tok.id != END_OF_STREAM_TOKEN)`), and
`blocked` means `bQueue->pop()` waits on an empty queue — with no live
producer the consumer blocks indefinitely. -/
inductive PopOut where
  | noData
  | got (more : Bool) (tok : LexTok) (a : AsyncLexer)
  | blocked
deriving Repr, DecidableEq

/-- `LexerImpl::getNextToken` in blocking-queue mode. -/
def getNextTokenBQ (a : AsyncLexer) : PopOut :=
  if a.st.endOfStream && a.queue.isEmpty && !a.running then PopOut.noData
  else
    match a.queue with
    | [] => PopOut.blocked
    | t :: rest =>
      PopOut.got (t.id ≠ endOfStreamTokenId) t ⟨a.st, rest, a.running⟩

/- ========================================================================
   The GBNF grammar model consumed by the RegLex compiler
   (gbnf/src/gbnf.hpp), restricted to the token kinds reglex.cpp reads:
   REGEX_STRING leaves and TAG_ID references (the grammar is already
   BNF-flat when it reaches the compiler).
   ======================================================================== -/

/-- A `gbnf::GrammarToken` as read by reglex.cpp: a regex-literal leaf or a
nonterminal (tag) reference. -/
inductive GrammarToken where
  | regexStr (data : String)
  | tagId (id : Nat)
deriving Repr, DecidableEq

/-- A `gbnf::GrammarRule`: the defined tag's id and the rule options; each
option is its ROOT token's list of children. -/
structure GrammarRule where
  id : Nat
  options : List (List GrammarToken)
deriving Repr, DecidableEq

/-- `gbnf::GbnfData`: the tag table (id, name) and the id-sorted rule
table. -/
structure GbnfData where
  tagTable : List (Nat × String)
  grammarTable : List GrammarRule
deriving Repr, DecidableEq

/-- `GbnfData::getRule(i)` (gbnf.hpp:260-266): `std::lower_bound` over the
id-sorted rule table — the first rule whose id is ≥ `i`.  Note that when no
rule has id exactly `i` this is *not* `end()` whenever a rule with a larger
id exists. -/
def getRule (g : GbnfData) (i : Nat) : Option GrammarRule :=
  g.grammarTable.find? (fun r => decide (i ≤ r.id))

/- ========================================================================
   collectRegexStringFromGTokens_priv (reglex.cpp:111-168).
   ======================================================================== -/

/-- `idStack.insert` on the `std::set<int>` of visited rule ids. -/
def insertId (i : Nat) (l : List Nat) : List Nat :=
  if i ∈ l then l else i :: l

/-- `idStack.erase` on the visited set. -/
def eraseId (i : Nat) (l : List Nat) : List Nat :=
  l.filter (fun j => decide (j ≠ i))

/-- The leaf test of reglex.cpp:124-126: exactly one option with exactly one
REGEX_STRING child. -/
def isLeafRule (r : GrammarRule) : Bool :=
  match r.options with
  | [[GrammarToken.regexStr _]] => true
  | _ => false

/-- The literal of a leaf rule. -/
def leafData (r : GrammarRule) : String :=
  match r.options with
  | [[GrammarToken.regexStr d]] => d
  | _ => ""

/-- `collectRegexStringFromGTokens_priv` (reglex.cpp:111-168).  The `str`
output parameter and the by-reference visited set `idStack` are threaded
through; the result is `(returned bool, str, idStack)`.  As in the source:
the current id is inserted on entry (after the cycle check); the id is
erased again only on the general-case return path (reglex.cpp:165) — the
leaf return path (reglex.cpp:124-130) leaves it in the set; the boolean
result of recursive calls is ignored (reglex.cpp:154); an unresolvable tag
reference (`getRule` = `end()`) is silently skipped.  Fuel-indexed: the
recursion depth is bounded by the number of distinct rule ids, so
`grammarTable.length + 2` fuel always suffices. -/
def collectRegex (g : GbnfData) :
    Nat → String → GrammarRule → List Nat → Bool → Bool × String × List Nat
  | 0, str, _, idStack, _ => (false, str, idStack)
  | fuel + 1, str, rule, idStack0, parentMultiOption =>
    if rule.id ∈ idStack0 then (false, str, idStack0)
    else
      let idStack := insertId rule.id idStack0
      if isLeafRule rule && !parentMultiOption then
        (true, str ++ leafData rule, idStack)
      else
        let multi := decide (1 < rule.options.length)
        let folded := rule.options.foldl
          (fun acc opt =>
            let str := if acc.2.2 then acc.1 else acc.1 ++ "|"
            let inner := opt.foldl
              (fun acc2 tok =>
                match tok with
                | GrammarToken.regexStr d => (acc2.1 ++ d, acc2.2)
                | GrammarToken.tagId i =>
                  match getRule g i with
                  | some r2 =>
                    match collectRegex g fuel acc2.1 r2 acc2.2 multi with
                    | (_, str2, stk2) => (str2, stk2)
                  | none => acc2)
              (str, acc.2.1)
            (inner.1, inner.2, false))
          (str ++ "(?:", idStack, true)
        (true, folded.1 ++ ")", eraseId rule.id folded.2.1)

/- ========================================================================
   checkAndAssignLexicProperties (reglex.cpp:173-300) and the RegLexData
   constructor from GbnfData (reglex.cpp:304-306).
   ======================================================================== -/

/-- The compiler-side `RegLexData` fields (reglex.hpp:68-114) that
`checkAndAssignLexicProperties` fills in (string representations; the
compiled `std::regex` objects are the semantic `RegLexSem` view above).
`useFallbackErrorRule` defaults to `true` and is never reassigned. -/
structure RegLexData where
  tokenTypeIDs : List Nat := []
  regexWhitespaces : String := ""
  useCustomWhitespaces : Bool := false
  useFallbackErrorRule : Bool := true
  spaceRuleIndex : Nat := 0
  errorRuleIndex : Nat := 0
  fullRegexRepr : String := ""
deriving Repr, DecidableEq

/-- Kind of one top-level capture group of the master regex, in order of
appearance: a token-emitting group (with its tag id), the whitespace group,
the fallback error group.  Tracked alongside the string assembly — each
constructor corresponds to one `(`...`)` appended to `finalRegex`. -/
inductive RegexGroup where
  | token (id : Nat)
  | space
  | error
deriving Repr, DecidableEq

/-- The special-tag registry (reglex.cpp:66-102): `regex_ignore` is the
recursive-regex (custom whitespace) tag; `delim` and `ignore` are the
non-regex tags whose processors do nothing. -/
def isRecursiveRegexTag (name : String) : Bool :=
  name = "regex_ignore"

/-- Tag ids whose name is a TYPE_RECURSIVE_REGEX special tag (the
`regexSpecTags` map of reglex.cpp:180-195). -/
def regexSpecTagIds (g : GbnfData) : List Nat :=
  (g.tagTable.filter (fun t => isRecursiveRegexTag t.2)).map (fun t => t.1)

/-- The `regex_ignore` processor (reglex.cpp:68-87).  `cond = 1` is
`COND_CALL_IN_RULE_RESOLVE_LOOP` (the only condition the compiler invokes it
with): record the rule's collected fragment as the custom whitespace pattern
and ask for the rule's deletion.  Under any other condition the processor
looks the rule up in `rl.rules`, which the compiler never fills
(`constructIndividualRules` is false), and throws. -/
def regexIgnoreProcess (rl : RegLexData) (str : String) (cond : Nat) :
    Except String (RegLexData × Nat) :=
  let rl := { rl with useCustomWhitespaces := true }
  if cond = 1 then Except.ok ({ rl with regexWhitespaces := str }, 1)
  else Except.error "[RegLexData(GbnfData)]: <delim_regex> rule is not present."

/-- The per-rule resolve loop of `checkAndAssignLexicProperties`
(reglex.cpp:244-277): collect each rule's fragment (the visited set
`ignoredTags` is shared across iterations, as in the source), let the
special-tag processor delete the whitespace rule, and otherwise append the
fragment as a capture group and push the rule id onto `tokenTypeIDs`. -/
def compileRules (g : GbnfData) :
    List GrammarRule → RegLexData → String → List RegexGroup → List Nat →
    Except String (RegLexData × String × List RegexGroup × List Nat)
  | [], rl, regex, grps, idStack => Except.ok (rl, regex, grps, idStack)
  | r :: rest, rl, regex, grps, idStack =>
    match collectRegex g (g.grammarTable.length + 2) "" r idStack false with
    | (false, _, idStack') => compileRules g rest rl regex grps idStack'
    | (true, regstr, idStack') =>
      if r.id ∈ regexSpecTagIds g then
        match regexIgnoreProcess rl regstr 1 with
        | Except.error e => Except.error e
        | Except.ok (rl', ret) =>
          if ret = 1 then compileRules g rest rl' regex grps idStack'
          else
            compileRules g rest
              { rl' with tokenTypeIDs := rl'.tokenTypeIDs ++ [r.id] }
              (regex ++ "(" ++ regstr ++ ")|")
              (grps ++ [RegexGroup.token r.id]) idStack'
      else
        compileRules g rest
          { rl with tokenTypeIDs := rl.tokenTypeIDs ++ [r.id] }
          (regex ++ "(" ++ regstr ++ ")|")
          (grps ++ [RegexGroup.token r.id]) idStack'

/-- `checkAndAssignLexicProperties` (reglex.cpp:173-300) as invoked by the
`RegLexData(GbnfData)` constructor (reglex.cpp:304-306):
`constructIndividualRules = false`, `useErrorFallbackRule = true`.  After the
rule loop it appends the whitespace group (`\s+`, or the custom fragment)
recording `spaceRuleIndex`, then the fallback group `(.+)` recording
`errorRuleIndex`.  Returns the filled `RegLexData` together with the ordered
capture-group kinds of the assembled master regex. -/
def checkAndAssignLexicProperties (g : GbnfData) :
    Except String (RegLexData × List RegexGroup) :=
  match compileRules g g.grammarTable {} "" [] [] with
  | Except.error e => Except.error e
  | Except.ok (rl, regex, grps, _) =>
    let wsFrag := if rl.useCustomWhitespaces then rl.regexWhitespaces else "\\s+"
    let regex := regex ++ "(" ++ wsFrag ++ ")"
    let rl := { rl with spaceRuleIndex := rl.tokenTypeIDs.length }
    let grps := grps ++ [RegexGroup.space]
    let regex := regex ++ "|(.+)"
    let rl := { rl with errorRuleIndex := rl.spaceRuleIndex + 1 }
    let grps := grps ++ [RegexGroup.error]
    Except.ok ({ rl with fullRegexRepr := regex }, grps)

/-- The group classification performed by the lexer on a 0-based capture
group index `k` (= its `i - 1`), in the order of the source's checks
(lexer.cpp:303, 320-321, 331): whitespace group, then error group (when the
fallback rule is on), else a token group looked up in `tokenTypeIDs`. -/
def classifyGroup (rl : RegLexData) (k : Nat) : RegexGroup :=
  if k = rl.spaceRuleIndex then RegexGroup.space
  else if rl.useFallbackErrorRule && k = rl.errorRuleIndex then RegexGroup.error
  else RegexGroup.token (rl.tokenTypeIDs.getD k 0)

/- ========================================================================
   Well-formedness of a lexer state, and the grammar fixtures used by the
   claims.
   ======================================================================== -/

/-- Well-formedness of a `LexState`: a positive nominal buffer size, a
buffer at least that long, and `bufferEnd` inside the buffer.  Holds for
every freshly constructed lexer (with the source's `BUFFER_SIZE = 5`) and is
preserved by the scanning loops. -/
def lexInv (s : LexState) : Prop :=
  0 < s.bufSize ∧ s.bufSize ≤ s.buffer.length ∧ s.bufEnd ≤ s.buffer.length

instance (s : LexState) : Decidable (lexInv s) := by
  unfold lexInv
  infer_instance

/-- The GBNF form of the Scenario A grammar
`<ident> := "\w+" ; <operator> := "[;+]" ;` (tag/rule ids as the gbnf
converter assigns them in the repository's own lexer test). -/
def scenarioAGbnf : GbnfData :=
  ⟨[(1, "ident"), (2, "operator")],
   [⟨1, [[GrammarToken.regexStr "\\w+"]]⟩,
    ⟨2, [[GrammarToken.regexStr "[;+]"]]⟩]⟩

/-- A grammar with a dangling nonterminal reference: rule 0 references tag 1,
and no rule defines tag 1. -/
def danglingRefGbnf : GbnfData :=
  ⟨[(0, "a"), (1, "b")], [⟨0, [[GrammarToken.tagId 1]]⟩]⟩

/-- A grammar where the non-cyclic leaf rule 0 is referenced twice from
sibling branches of rule 1 (`<b> := <a> <a>`). -/
def siblingRefGbnf : GbnfData :=
  ⟨[(0, "a"), (1, "b")],
   [⟨0, [[GrammarToken.regexStr "x"]]⟩,
    ⟨1, [[GrammarToken.tagId 0, GrammarToken.tagId 0]]⟩]⟩

/-- The `RegLexData` the compiler produces for the Scenario A grammar
(string-representation fields; cf. `scenarioALex` for the semantic view). -/
def scenarioARegLex : RegLexData :=
  { tokenTypeIDs := [1, 2], spaceRuleIndex := 2, errorRuleIndex := 3,
    fullRegexRepr := "(\\w+)|([;+])|(\\s+)|(.+)" }

/-- The capture groups of the Scenario A master pattern. -/
def scenarioAGroups : List RegexGroup :=
  [RegexGroup.token 1, RegexGroup.token 2, RegexGroup.space, RegexGroup.error]

/- ========================================================================
   Claim theorems.
   ======================================================================== -/

/-- C1: the round-trip property fails on the code.  For the Scenario A
grammar and the input "ab;cd" consisting only of grammar-legal tokens, with
the source's `BUFFER_SIZE = 5`, the tokenizer emits only "ab" and ";" and
then reports end-of-stream: the final token "cd" was still buffered when the
zero-byte read occurred (its match had reached the buffer end, triggering
rebuffering, and `getNextTokenPriv_Regexed` returns `TOKEN_END_OF_FILE`
at lexer.cpp:448 without matching the moved remainder), so the emitted
tokens — there is no whitespace to skip — concatenate to "ab;", not
"ab;cd". -/
theorem c1_roundTrip_drops_buffered_tail :
    tokenizeSync scenarioALex 50 20 (initLexState 5 "ab;cd".toList) =
      some ([⟨1, "ab".toList⟩, ⟨2, ";".toList⟩], LexResult.endOfFile) ∧
    (([⟨1, "ab".toList⟩, ⟨2, ";".toList⟩] : List LexTok).map LexTok.data).flatten ≠
      "ab;cd".toList :=
  ⟨by rfl, by decide⟩

/-- C2 counterexample: for the Scenario A grammar with the fallback error
group enabled and the input "ab#cd" (buffer 2048, large enough to hold the
whole input, as in Scenario A), the run emits ("ab", ident) and then raises
the error — but the raised error carries the never-updated line/column
counters (0, 0) and the greedy error-group match "#cd"; it does not carry
the text "#" at column 2 as the claim states. -/
theorem c2_error_payload_counterexample :
    tokenizeSync scenarioALex 60 20 (initLexState 512 "ab#cd".toList) =
      some ([⟨1, "ab".toList⟩], LexResult.lexError 0 0 "#cd".toList) ∧
    LexResult.lexError 0 0 "#cd".toList ≠ LexResult.lexError 0 2 "#".toList :=
  ⟨by rfl, by decide⟩

/-- C2 amended: tokenizing "ab#cd" under the Scenario A grammar with
fallback errors enabled emits ("ab", ident) and then (a) with the source's
fixed `BUFFER_SIZE = 5` reports plain end-of-stream — no lexical error is
raised at all, the "#cd" bytes being dropped by the rebuffer-at-end-of-
stream path — while (b) with a buffer that holds the whole input (512 here; Scenario A uses 2048) it raises the error, whose carried position is line 0,
column 0 (the line/column statistics are never updated on the regex path)
and whose matched offending text is the greedy "#cd", not "#". -/
theorem c2_amended_error_behaviour :
    tokenizeSync scenarioALex 60 20 (initLexState 5 "ab#cd".toList) =
      some ([⟨1, "ab".toList⟩], LexResult.endOfFile) ∧
    tokenizeSync scenarioALex 60 20 (initLexState 512 "ab#cd".toList) =
      some ([⟨1, "ab".toList⟩], LexResult.lexError 0 0 "#cd".toList) :=
  ⟨by rfl, by rfl⟩

/-- C3: buffer-size transparency fails on the code.  The same Scenario A
grammar and input "ab;cd" produce different token sequences under
`BUFFER_SIZE = 5` (the source constant) and an input-covering 512 (the claim cites 2048; any covering size behaves identically): the small-buffer run
drops the final "cd" token at end of stream. -/
theorem c3_bufferSize_changes_tokens :
    tokenizeSync scenarioALex 50 20 (initLexState 5 "ab;cd".toList) =
      some ([⟨1, "ab".toList⟩, ⟨2, ";".toList⟩], LexResult.endOfFile) ∧
    tokenizeSync scenarioALex 50 20 (initLexState 512 "ab;cd".toList) =
      some ([⟨1, "ab".toList⟩, ⟨2, ";".toList⟩, ⟨1, "cd".toList⟩],
        LexResult.endOfFile) ∧
    ([⟨1, "ab".toList⟩, ⟨2, ";".toList⟩] : List LexTok) ≠
      [⟨1, "ab".toList⟩, ⟨2, ";".toList⟩, ⟨1, "cd".toList⟩] :=
  ⟨by rfl, by rfl, by decide⟩

/-- C4: Scenario D holds.  For the grammar `<ident> := "[abc]+";`, the input
of 32 repeated 'a' characters and chunk size 5, the tokenizer emits exactly
one token carrying the complete 32-character string and then reports a clean
end-of-stream; after the token is returned the working buffer is back at its
nominal size 5 (it was grown during the match — the 32-character token could
not fit the 5-byte buffer — and reset when the token was accepted). -/
theorem c4_long_token_not_truncated :
    tokenizeSync scenarioDLex 80 20 (initLexState 5 (List.replicate 32 'a')) =
      some ([⟨1, List.replicate 32 'a'⟩], LexResult.endOfFile) ∧
    (getNextTokenPriv_Regexed scenarioDLex
        (initLexState 5 (List.replicate 32 'a')) 80).map
        (fun p => (p.1, p.2.buffer.length)) =
      some (LexResult.good ⟨1, List.replicate 32 'a'⟩, 5) :=
  ⟨by rfl, by rfl⟩

/-- C5: a dangling nonterminal reference does not fail compilation.  For the
grammar in which rule 0's only option references tag 1 and no rule defines
tag 1, `RegLexData` construction succeeds (`Except.ok`, no GrammarError):
`collectRegexStringFromGTokens_priv` silently skips the unresolvable
reference (reglex.cpp:152-156 has no else branch), producing the lexicon
with the reference dropped — rule 0 compiles to the empty group `(?:)`. -/
theorem c5_dangling_reference_not_rejected :
    checkAndAssignLexicProperties danglingRefGbnf =
      Except.ok
        ({ tokenTypeIDs := [0], spaceRuleIndex := 1, errorRuleIndex := 2,
           fullRegexRepr := "((?:))|(\\s+)|(.+)" },
         [RegexGroup.token 0, RegexGroup.space, RegexGroup.error]) :=
  by rfl

/-- C6: the visited set is not restored on every return path.  Running the
fragment builder on the leaf rule `<a> := "x"` with an empty visited set
returns with the rule's id still in the set (the leaf-optimization return at
reglex.cpp:124-130 skips the erase at reglex.cpp:165); consequently, for
`<b> := <a> <a>`, the second sibling reference to the non-cyclic rule `a`
finds `a` in the visited set and is silently dropped: the fragment is
`(?:x)`, not `(?:xx)`. -/
theorem c6_visited_set_leaks_on_leaf_path :
    collectRegex siblingRefGbnf 9 "" ⟨0, [[GrammarToken.regexStr "x"]]⟩ []
        false = (true, "x", [0]) ∧
    ([0] : List Nat) ≠ [] ∧
    collectRegex siblingRefGbnf 9 ""
        ⟨1, [[GrammarToken.tagId 0, GrammarToken.tagId 0]]⟩ [] false =
      (true, "(?:x)", [0]) :=
  ⟨by rfl, by decide, by rfl⟩

/-- C9: a producer-side fatal error is not converted into a terminal queue
signal.  Starting a blocking-queue lexer on the input "#" (which the
fallback error group rejects) makes the runner throw out of `start()`
before the END_OF_STREAM push and before `running = false`
(lexer.cpp:711-716 has no try/catch): the queue is left empty with
`running` still true, and the consumer's next `getNextToken` call fails its
no-data guard and blocks forever in `bQueue->pop()`. -/
theorem c9_producer_error_leaves_consumer_blocked :
    startBQ scenarioALex ⟨initLexState 5 "#".toList, [], false⟩ 50 =
      some (StartOut.exn
        ⟨⟨5, [], '#' :: List.replicate 4 '\x00', 0, 1, true, 0, 0⟩, [], true⟩
        (LexResult.lexError 0 0 "#".toList)) ∧
    getNextTokenBQ
        ⟨⟨5, [], '#' :: List.replicate 4 '\x00', 0, 1, true, 0, 0⟩, [], true⟩ =
      PopOut.blocked :=
  ⟨by rfl, by rfl⟩

/- ========================================================================
   Shared lemmas about the matcher and the buffer, used by the universal
   claims (C7, C8, C10).
   ======================================================================== -/
lemma runLen_le (cls : Char → Bool) : ∀ l : List Char, runLen cls l ≤ l.length := by
  intro l
  induction l with
  | nil => simp [runLen]
  | cons c rest ih =>
    simp only [runLen, List.length_cons]
    split
    · omega
    · omega

lemma altMatchLen_spec (a : AltPat) (l : List Char) (n : Nat)
    (h : altMatchLen a l = some n) : 0 < n ∧ n ≤ l.length := by
  match l with
  | [] => simp [altMatchLen] at h
  | c :: rest =>
    simp only [altMatchLen] at h
    split at h
    · have hlen := runLen_le a.cls (c :: rest)
      have hpos : 0 < runLen a.cls (c :: rest) := by
        simp only [runLen]
        split
        · omega
        · simp_all
      injection h with h1
      subst h1
      split
      · exact ⟨hpos, hlen⟩
      · exact ⟨Nat.one_pos, by simp⟩
    · cases h

lemma firstAlt_spec : ∀ (alts : List AltPat) (l : List Char) (g n : Nat),
    firstAlt alts l = some (g, n) → 0 < n ∧ n ≤ l.length := by
  intro alts
  induction alts with
  | nil => intro l g n h; simp [firstAlt] at h
  | cons a rest ih =>
    intro l g n h
    simp only [firstAlt] at h
    rcases ha : altMatchLen a l with _ | m
    · rw [ha] at h
      rcases hf : firstAlt rest l with _ | ⟨g2, n2⟩
      · rw [hf] at h; cases h
      · rw [hf] at h
        simp only [Option.some.injEq, Prod.mk.injEq] at h
        obtain ⟨hg, hn⟩ := h
        subst hn
        exact ih l g2 n2 hf
    · rw [ha] at h
      simp only [Option.some.injEq, Prod.mk.injEq] at h
      obtain ⟨hg, hn⟩ := h
      subst hn
      exact altMatchLen_spec a l m ha

lemma searchFrom_spec (alts : List AltPat) :
    ∀ (l : List Char) (p g n : Nat),
    searchFrom alts l = some (p, g, n) → 0 < n ∧ p + n ≤ l.length := by
  intro l
  induction l with
  | nil => intro p g n h; simp [searchFrom] at h
  | cons c rest ih =>
    intro p g n h
    simp only [searchFrom] at h
    rcases hf : firstAlt alts (c :: rest) with _ | ⟨g1, n1⟩
    · rw [hf] at h
      rcases hs : searchFrom alts rest with _ | ⟨p2, g2, n2⟩
      · rw [hs] at h; cases h
      · rw [hs] at h
        simp only [Option.some.injEq, Prod.mk.injEq] at h
        obtain ⟨hp, hg, hn⟩ := h
        subst hp
        subst hn
        have := ih p2 g2 n2 hs
        simp only [List.length_cons]
        omega
    · rw [hf] at h
      simp only [Option.some.injEq, Prod.mk.injEq] at h
      obtain ⟨hp, hg, hn⟩ := h
      subst hp
      subst hn
      have := firstAlt_spec alts (c :: rest) g1 n1 hf
      simp only [List.length_cons] at this ⊢
      omega

lemma writeAt_length (buf : List Char) (start : Nat) (chunk : List Char)
    (h : start + chunk.length ≤ buf.length) :
    (writeAt buf start chunk).length = buf.length := by
  simp only [writeAt, List.length_append, List.length_take, List.length_drop]
  omega

/-- Field facts about a failed `updateBuffer`: the pointers and the buffer
are untouched, and provided the buffer is nonempty the `endOfStream` flag is
true afterwards (the only ways to return false are the already-set flag and
a zero-byte read, which with a nonempty buffer requests at least one
byte). -/
lemma updateBuffer_false_spec (s : LexState) (i : Nat) (s' : LexState)
    (h : updateBuffer s i = (false, s')) :
    s'.buffer = s.buffer ∧ s'.bufSize = s.bufSize ∧ s'.bufPos = s.bufPos ∧
    s'.bufEnd = s.bufEnd ∧
    (0 < s.buffer.length → s'.endOfStream = true) := by
  simp only [updateBuffer] at h
  split at h
  · injection h with h1 h2
    subst h2
    exact ⟨rfl, rfl, rfl, rfl, fun _ => by assumption⟩
  · split at h
    · split at h <;> split at h
      · injection h with h1 h2
        subst h2
        refine ⟨rfl, rfl, rfl, rfl, fun hlen => ?_⟩
        simp only [decide_eq_true_eq]
        rename_i hge hcount
        rw [List.length_take] at hcount
        omega
      · injection h with h1
        exact absurd h1 (by simp)
      · injection h with h1 h2
        subst h2
        refine ⟨rfl, rfl, rfl, rfl, fun hlen => ?_⟩
        simp only [decide_eq_true_eq]
        rename_i hge hcount
        rw [List.length_take] at hcount
        omega
      · injection h with h1
        exact absurd h1 (by simp)
    · injection h with h1
      exact absurd h1 (by simp)

/-- Field facts about a successful `updateBuffer`: either nothing changed at
all (the no-read path, which requires `start = 0`, still-pending data and an
unset end-of-stream flag), or a read happened, preserving the buffer length
and restoring `bufPos ≤ bufEnd ≤ buffer.length`. -/
lemma updateBuffer_true_spec (s : LexState) (i : Nat) (s' : LexState)
    (hlen : 0 < s.buffer.length) (h : updateBuffer s i = (true, s')) :
    (s' = s ∧ i = 0 ∧ s.endOfStream = false) ∨
    (s'.bufSize = s.bufSize ∧ s'.buffer.length = s.buffer.length ∧
      s'.bufPos ≤ s'.bufEnd ∧ s'.bufEnd ≤ s'.buffer.length) := by
  simp only [updateBuffer] at h
  split at h
  · cases h
  · rename_i heos
    split at h
    · split at h <;> split at h
      · cases h
      · injection h with h1 h2
        subst h2
        rename_i hge hcount
        rw [List.length_take] at hcount
        refine Or.inr ⟨rfl, ?_, ?_, ?_⟩
        · simp only
          rw [writeAt_length]
          rw [List.length_take]
          omega
        · simp only
          omega
        · simp only
          rw [writeAt_length]
          · rw [List.length_take]
            omega
          · rw [List.length_take]
            omega
      · cases h
      · injection h with h1 h2
        subst h2
        rename_i hge hcount
        rw [List.length_take] at hcount
        refine Or.inr ⟨rfl, ?_, ?_, ?_⟩
        · simp only
          rw [writeAt_length]
          rw [List.length_take]
          omega
        · simp only
          omega
        · simp only
          rw [writeAt_length]
          · rw [List.length_take]
            omega
          · rw [List.length_take]
            omega
    · injection h with h1 h2
      subst h2
      rename_i hcond
      refine Or.inl ⟨rfl, ?_, by simpa using heos⟩
      by_contra hi
      simp [hi] at hcond
/-- Invariant spec of the runner's match-iterator loop (`runnerInner`): the
pushed tokens carry non-negative grammar ids, and the resulting state/flags
fall into one of the loop's three continue shapes: the grown-buffer accept
(`REFETCH_NEEDED`, nominal-size buffer restored, `bufferWasExtended`
cleared), the open-token rebuffer (`TOKEN_AT_THE_END`, match inside the
window), or plain window exhaustion. -/
lemma runnerInner_spec (lex : RegLexSem) (ext : Bool) :
    ∀ (fuel : Nat) (s : LexState) (cursor : Nat), lexInv s →
    (match runnerInner lex ext fuel s cursor with
     | RInner.cont ps s' rebuf fo ext' =>
       (∀ t ∈ ps, 0 ≤ t.id) ∧
       ((rebuf = 1 ∧ ext' = false ∧ 0 < s'.bufSize ∧
           s'.bufSize ≤ s'.buffer.length ∧
           s'.endOfStream = s.endOfStream ∧ (fo = 0 → s.endOfStream = true)) ∨
        (ext' = ext ∧ lexInv s' ∧
           (rebuf = 2 ∧ 0 < fo ∧ s'.bufPos + fo ≤ s'.bufEnd ∨
            rebuf = 0 ∧ fo = 0)))
     | RInner.threw _ _ _ => True) := by
  intro fuel
  induction fuel with
  | zero =>
    intro s cursor hinv
    simp only [runnerInner]
    exact ⟨by simp, Or.inr ⟨by trivial, hinv, Or.inr ⟨by trivial, by trivial⟩⟩⟩
  | succ n ih =>
    intro s cursor hinv
    simp only [runnerInner]
    rcases hs : searchFrom lex.alts ((s.buffer.take s.bufEnd).drop cursor) with
      _ | ⟨p, g, len⟩
    · simp only
      exact ⟨by simp, Or.inr ⟨by trivial, hinv, Or.inr ⟨by trivial, by trivial⟩⟩⟩
    · simp only
      have hbound := searchFrom_spec lex.alts _ p g len hs
      have hwin : ((s.buffer.take s.bufEnd).drop cursor).length =
          min s.bufEnd s.buffer.length - cursor := by
        simp [List.length_drop]
      have hmatch : cursor + p + len ≤ s.bufEnd := by
        obtain ⟨_, _, hbe⟩ := hinv
        omega
      by_cases hg : g = lex.spaceRuleIndex
      · rw [if_pos hg]
        exact ih s (cursor + p + len) hinv
      · rw [if_neg hg]
        by_cases hb : (cursor + p + len ≥ s.bufEnd && !s.endOfStream) = true
        · rw [if_pos hb]
          refine ⟨by simp, Or.inr ⟨by trivial, hinv, Or.inl ⟨by trivial, ?_, ?_⟩⟩⟩
          · obtain ⟨hl, _⟩ := hbound
            omega
          · simpa using hmatch
        · rw [if_neg hb]
          by_cases herr :
              (lex.useFallbackErrorRule && g = lex.errorRuleIndex) = true
          · rw [if_pos herr]
            trivial
          · rw [if_neg herr]
            by_cases he : ext = true
            · rw [if_pos he]
              refine ⟨?_, Or.inl ⟨by trivial, by trivial, hinv.1, ?_, by trivial, ?_⟩⟩
              · intro t ht
                simp only [List.mem_singleton] at ht
                subst ht
                exact Int.natCast_nonneg _
              · -- nominal-size buffer: remainder ++ padding
                obtain ⟨hbs, hsl, hbe⟩ := hinv
                simp only [List.length_append, List.length_replicate,
                  List.length_drop, List.length_take]
                omega
              · -- a zero-length remainder means the match ends at the
                -- buffer end, so the non-rebuffer branch forces endOfStream
                intro hfo
                cases hsx : s.endOfStream with
                | true => rfl
                | false =>
                  exfalso
                  apply hb
                  simp only [hsx, Bool.not_false, Bool.and_true,
                    decide_eq_true_eq, ge_iff_le]
                  omega
            · rw [if_neg he]
              have hrec := ih s (cursor + p + len) hinv
              rcases hr : runnerInner lex ext n s (cursor + p + len) with
                ⟨ps0, s0, rb0, fo0, e0⟩ | ⟨ps0, r0, s0⟩
              · rw [hr] at hrec
                simp only
                obtain ⟨hids, hcase⟩ := hrec
                refine ⟨?_, hcase⟩
                intro t ht
                simp only [List.mem_cons] at ht
                rcases ht with rfl | ht
                · exact Int.natCast_nonneg _
                · exact hids t ht
              · rw [hr] at hrec
                simp only

/-- The TOKEN_AT_THE_END block preserves well-formedness: the fetch offset
is the token length, and the resulting buffer still contains at least
`bufSize` (and at least `tokLen`) bytes. -/
lemma rebufferTokenAtEnd_spec (s' : LexState) (tokLen : Nat) (ext0 : Bool)
    (s1 : LexState) (f1 : Nat) (e1 : Bool)
    (h : rebufferTokenAtEnd s' tokLen ext0 = (s1, f1, e1))
    (hinv : lexInv s') (hpos : 0 < tokLen)
    (hle : s'.bufPos + tokLen ≤ s'.bufEnd) :
    f1 = tokLen ∧ lexInv s1 ∧ tokLen ≤ s1.buffer.length := by
  obtain ⟨hbs, hsl, hbe⟩ := hinv
  simp only [rebufferTokenAtEnd] at h
  -- `split` resolves the inner `tokLen > 0` tests via `hpos`
  split at h
  · injection h with h1 h2
    injection h2 with h2 h3
    subst h1
    subst h2
    refine ⟨rfl, ⟨hbs, ?_, ?_⟩, ?_⟩ <;>
      simp only [List.length_append, List.length_take, List.length_drop,
        List.length_replicate] <;>
      omega
  · injection h with h1 h2
    injection h2 with h2 h3
    subst h1
    subst h2
    refine ⟨rfl, ⟨hbs, ?_, ?_⟩, ?_⟩ <;>
      simp only [List.length_append, List.length_take, List.length_drop] <;>
      omega

/-- Main invariant of the producing loop: a run that ends in
`RunOut.done` ends with the end-of-stream flag set, and every token it
pushed carries a non-negative grammar id. -/
lemma runnerLoop_done_spec (lex : RegLexSem) :
    ∀ (fuel : Nat) (s : LexState) (ext : Bool) (acc ps : List LexTok)
      (sf : LexState),
    lexInv s → (∀ t ∈ acc, 0 ≤ t.id) →
    runnerLoop lex fuel s ext acc = some (RunOut.done ps sf) →
    sf.endOfStream = true ∧ ∀ t ∈ ps, 0 ≤ t.id := by
  intro fuel
  induction fuel with
  | zero =>
    intro s ext acc ps sf _ _ h
    simp [runnerLoop] at h
  | succ n ih =>
    intro s ext acc ps sf hinv hacc h
    have hspec := runnerInner_spec lex ext (s.bufEnd - s.bufPos + 1) s s.bufPos hinv
    simp only [runnerLoop] at h
    rcases hri : runnerInner lex ext (s.bufEnd - s.bufPos + 1) s s.bufPos with
      ⟨ps0, s0, rebuf, fo, ext0⟩ | ⟨ps0, r0, s0⟩
    rotate_left
    · rw [hri] at h
      simp at h
    · rw [hri] at hspec
      simp only [hri] at h
      obtain ⟨hids0, hcase⟩ := hspec
      have haccids : ∀ t ∈ acc ++ ps0, 0 ≤ t.id := by
        intro t ht
        rcases List.mem_append.mp ht with h1 | h2
        · exact hacc t h1
        · exact hids0 t h2
      rcases hcase with ⟨hrb, hext0, hbs0, hbl0, heq0, hfo0⟩ |
        ⟨hexteq, hinv0, hsub⟩
      · -- REFETCH_NEEDED after a grown-buffer accept: rebuf = 1, ext off
        subst hrb
        subst hext0
        rw [if_neg (by omega : ¬(1 : Nat) = 2)] at h
        split at h
        · rename_i s2 hub
          rcases updateBuffer_true_spec s0 fo s2 (by omega) hub with
            ⟨hseq, hfoz, hnoeos⟩ | ⟨hbsz, hlen, hpb, hbe⟩
          · exfalso
            have hx := hfo0 hfoz
            rw [← heq0] at hx
            rw [hx] at hnoeos
            cases hnoeos
          · rw [if_pos (by simp : (decide ((1 : Nat) ≠ 0) || false) = true)] at h
            have hinv2 : lexInv { s2 with bufPos := 0 } := by
              refine ⟨?_, ?_, ?_⟩
              · show 0 < s2.bufSize
                omega
              · show s2.bufSize ≤ s2.buffer.length
                omega
              · show s2.bufEnd ≤ s2.buffer.length
                omega
            exact ih _ _ _ _ _ hinv2 haccids h
        · rename_i s2 hub
          have hfs := updateBuffer_false_spec s0 fo s2 hub
          rw [if_pos (by decide : (!false) = true)] at h
          simp only [Option.some.injEq, RunOut.done.injEq] at h
          obtain ⟨rfl, rfl⟩ := h
          exact ⟨hfs.2.2.2.2 (by omega), haccids⟩
      · rcases hsub with ⟨hrb2, hfop, hfole⟩ | ⟨hrb0, hfoz⟩
        · -- TOKEN_AT_THE_END: rebuf = 2
          subst hrb2
          rw [if_pos rfl] at h
          rcases hra : rebufferTokenAtEnd s0 fo ext0 with ⟨s1, f1, e1⟩
          simp only [hra] at h
          obtain ⟨hf1, hinv1, hf1le⟩ :=
            rebufferTokenAtEnd_spec s0 fo ext0 s1 f1 e1 hra hinv0 hfop hfole
          obtain ⟨hbs1, hbl1, hbe1⟩ := hinv1
          split at h
          · rename_i s2 hub
            rcases updateBuffer_true_spec s1 f1 s2 (by omega) hub with
              ⟨hseq, hfoz, hnoeos⟩ | ⟨hbsz, hlen, hpb, hbe⟩
            · omega
            · rw [if_pos (by simp : (decide ((2 : Nat) ≠ 0) || e1) = true)] at h
              have hinv2 : lexInv { s2 with bufPos := 0 } := by
                refine ⟨?_, ?_, ?_⟩
                · show 0 < s2.bufSize
                  omega
                · show s2.bufSize ≤ s2.buffer.length
                  omega
                · show s2.bufEnd ≤ s2.buffer.length
                  omega
              exact ih _ _ _ _ _ hinv2 haccids h
          · rename_i s2 hub
            have hfs := updateBuffer_false_spec s1 f1 s2 hub
            have hl2 : s2.buffer.length = s1.buffer.length := by rw [hfs.1]
            cases e1
            · rw [if_pos (by decide : (!false) = true)] at h
              simp only [Option.some.injEq, RunOut.done.injEq] at h
              obtain ⟨rfl, rfl⟩ := h
              exact ⟨hfs.2.2.2.2 (by omega), haccids⟩
            · rw [if_neg (by decide : ¬(!true) = true)] at h
              rw [if_pos (by omega : (2 : Nat) ≠ 0)] at h
              rw [if_pos (by simp : (decide ((2 : Nat) ≠ 0) || true) = true)] at h
              have hinv4 :
                  lexInv { { s2 with bufEnd := f1 } with bufPos := 0 } := by
                refine ⟨?_, ?_, ?_⟩
                · show 0 < s2.bufSize
                  rw [hfs.2.1]
                  omega
                · show s2.bufSize ≤ s2.buffer.length
                  rw [hfs.2.1, hl2]
                  omega
                · show f1 ≤ s2.buffer.length
                  omega
              exact ih _ _ _ _ _ hinv4 haccids h
        · -- window exhausted: rebuf = 0, nothing fetched yet
          subst hrb0
          subst hfoz
          rw [if_neg (by omega : ¬(0 : Nat) = 2)] at h
          obtain ⟨hbs0, hbl0, hbe0⟩ := hinv0
          split at h
          · rename_i s2 hub
            have hinv2 : lexInv s2 := by
              rcases updateBuffer_true_spec s0 0 s2 (by omega) hub with
                ⟨hseq, _, _⟩ | ⟨hbsz, hlen, hpb, hbe⟩
              · rw [hseq]
                exact ⟨hbs0, hbl0, hbe0⟩
              · exact ⟨by omega, by omega, hbe⟩
            obtain ⟨hbs2, hbl2, hbe2⟩ := hinv2
            cases hx : ext0
            · rw [hx] at h
              rw [if_neg (by simp : ¬(decide ((0 : Nat) ≠ 0) || false) = true)] at h
              exact ih _ _ _ _ _ ⟨hbs2, hbl2, hbe2⟩ haccids h
            · rw [hx] at h
              rw [if_pos (by simp : (decide ((0 : Nat) ≠ 0) || true) = true)] at h
              have hinv3 : lexInv { s2 with bufPos := 0 } := by
                exact ⟨hbs2, hbl2, hbe2⟩
              exact ih _ _ _ _ _ hinv3 haccids h
          · rename_i s2 hub
            have hfs := updateBuffer_false_spec s0 0 s2 hub
            cases hx : ext0
            · rw [hx] at h
              rw [if_pos (by decide : (!false) = true)] at h
              simp only [Option.some.injEq, RunOut.done.injEq] at h
              obtain ⟨rfl, rfl⟩ := h
              exact ⟨hfs.2.2.2.2 (by omega), haccids⟩
            · rw [hx] at h
              rw [if_neg (by decide : ¬(!true) = true)] at h
              rw [if_neg (by omega : ¬(0 : Nat) ≠ 0)] at h
              rw [if_pos (by simp : (decide ((0 : Nat) ≠ 0) || true) = true)] at h
              have hinv4 : lexInv { s2 with bufPos := 0 } := by
                refine ⟨?_, ?_, ?_⟩
                · show 0 < s2.bufSize
                  rw [hfs.2.1]
                  omega
                · show s2.bufSize ≤ s2.buffer.length
                  have : s2.buffer.length = s0.buffer.length := by rw [hfs.1]
                  rw [hfs.2.1, this]
                  omega
                · show s2.bufEnd ≤ s2.buffer.length
                  have : s2.buffer.length = s0.buffer.length := by rw [hfs.1]
                  rw [hfs.2.2.2.1, this]
                  omega
              exact ih _ _ _ _ _ hinv4 haccids h

/-- `runner_dedicatedIteration` ends a completed (non-throwing) run with the
end-of-stream flag set, having pushed only tokens with non-negative grammar
ids. -/
lemma runnerDedicated_done_spec (lex : RegLexSem) (s : LexState) (fuel : Nat)
    (ps : List LexTok) (sf : LexState) (hinv : lexInv s)
    (h : runnerDedicated lex s fuel = some (RunOut.done ps sf)) :
    sf.endOfStream = true ∧ ∀ t ∈ ps, 0 ≤ t.id := by
  obtain ⟨hbs, hbl, hbe⟩ := hinv
  simp only [runnerDedicated] at h
  split at h
  · rename_i s0 hub
    simp only [Option.some.injEq, RunOut.done.injEq] at h
    obtain ⟨rfl, rfl⟩ := h
    refine ⟨(updateBuffer_false_spec s 0 s0 hub).2.2.2.2 (by omega), ?_⟩
    intro t ht
    cases ht
  · rename_i s0 hub
    have hinv0 : lexInv s0 := by
      rcases updateBuffer_true_spec s 0 s0 (by omega) hub with
        ⟨hseq, _, _⟩ | ⟨hbsz, hlen, hpb, hbe2⟩
      · rw [hseq]
        exact ⟨hbs, hbl, hbe⟩
      · exact ⟨by omega, by omega, hbe2⟩
    exact runnerLoop_done_spec lex fuel s0 false [] ps sf hinv0 (by simp) h

/-- C8: sentinel exactness holds for every completed run of `start()`.  If
the producing loop completes (`RunOut.done`), `start()` returns having
appended the produced tokens and exactly one END_OF_STREAM sentinel — the
sentinel is the last queue entry, and no real token carries the sentinel id
(grammar ids are non-negative) — and once the queue has been drained past
the sentinel, every further `getNextToken` call returns false
(`endOfStream` is set, the queue is empty and `running` has been
cleared). -/
theorem c8_sentinel_exactness (lex : RegLexSem) (a : AsyncLexer) (fuel : Nat)
    (pushed : List LexTok) (sf : LexState)
    (hinv : lexInv a.st) (hnr : a.running = false)
    (hrun : runnerDedicated lex a.st fuel = some (RunOut.done pushed sf)) :
    startBQ lex a fuel =
      some (StartOut.ret ⟨sf, a.queue ++ pushed ++ [eosToken], false⟩) ∧
    ((pushed ++ [eosToken]).filter
        (fun t => decide (t.id = endOfStreamTokenId))).length = 1 ∧
    (pushed ++ [eosToken]).getLast? = some eosToken ∧
    getNextTokenBQ ⟨sf, [], false⟩ = PopOut.noData := by
  obtain ⟨heos, hids⟩ := runnerDedicated_done_spec lex a.st fuel pushed sf hinv hrun
  refine ⟨?_, ?_, ?_, ?_⟩
  · unfold startBQ
    rw [hnr, hrun]
    simp [List.append_assoc]
  · rw [List.filter_append]
    have hnone : pushed.filter (fun t => decide (t.id = endOfStreamTokenId)) = [] := by
      rw [List.filter_eq_nil_iff]
      intro t ht
      have := hids t ht
      simp only [decide_eq_true_eq, endOfStreamTokenId]
      omega
    rw [hnone]
    simp [eosToken, endOfStreamTokenId]
  · exact List.getLast?_concat _
  · unfold getNextTokenBQ
    rw [heos]
    simp

/-- C8 witness: a concrete blocking-queue run over the Scenario A lexicon
and the input "a". -/
theorem c8_sentinel_exactness_witness :
    startBQ scenarioALex ⟨initLexState 5 "a".toList, [], false⟩ 50 =
      some (StartOut.ret
        ⟨⟨5, [], 'a' :: List.replicate 4 '\x00', 0, 1, true, 0, 0⟩,
         [⟨1, "a".toList⟩, eosToken], false⟩) ∧
    (([⟨(1 : Int), "a".toList⟩, eosToken] : List LexTok).filter
        (fun t => decide (t.id = endOfStreamTokenId))).length = 1 ∧
    ([⟨(1 : Int), "a".toList⟩, eosToken] : List LexTok).getLast? = some eosToken ∧
    getNextTokenBQ
        ⟨⟨5, [], 'a' :: List.replicate 4 '\x00', 0, 1, true, 0, 0⟩, [], false⟩ =
      PopOut.noData :=
  c8_sentinel_exactness scenarioALex ⟨initLexState 5 "a".toList, [], false⟩ 50
    [⟨1, "a".toList⟩] ⟨5, [], 'a' :: List.replicate 4 '\x00', 0, 1, true, 0, 0⟩
    (by decide) rfl (by rfl)

/-- C10: with the blocking queue enabled and the lexer not already running,
`start()` performs the entire production synchronously on the calling
thread (lexer.cpp spawns no thread anywhere): when it returns, the queue
already holds every produced token followed by the END_OF_STREAM sentinel,
and `running` is false again. -/
theorem c10_start_synchronous (lex : RegLexSem) (a : AsyncLexer) (fuel : Nat)
    (pushed : List LexTok) (sf : LexState)
    (hnr : a.running = false)
    (hrun : runnerDedicated lex a.st fuel = some (RunOut.done pushed sf)) :
    startBQ lex a fuel =
      some (StartOut.ret ⟨sf, a.queue ++ pushed ++ [eosToken], false⟩) := by
  unfold startBQ
  rw [hnr, hrun]
  simp [List.append_assoc]

/-- C10 witness: the concrete run of `start()` on input "a". -/
theorem c10_start_synchronous_witness :
    startBQ scenarioALex ⟨initLexState 5 "a".toList, [], false⟩ 50 =
      some (StartOut.ret
        ⟨⟨5, [], 'a' :: List.replicate 4 '\x00', 0, 1, true, 0, 0⟩,
         [⟨1, "a".toList⟩, eosToken], false⟩) :=
  c10_start_synchronous scenarioALex ⟨initLexState 5 "a".toList, [], false⟩ 50
    [⟨1, "a".toList⟩] ⟨5, [], 'a' :: List.replicate 4 '\x00', 0, 1, true, 0, 0⟩
    rfl (by rfl)

/-- The per-rule resolve loop keeps the capture-group list aligned with
`tokenTypeIDs` (one token group appended exactly when one id is pushed) and
never touches `useFallbackErrorRule`. -/
lemma compileRules_groups (g : GbnfData) :
    ∀ (rules : List GrammarRule) (rl : RegLexData) (regex : String)
      (grps : List RegexGroup) (stk : List Nat) (rl2 : RegLexData)
      (regex2 : String) (grps2 : List RegexGroup) (stk2 : List Nat),
    compileRules g rules rl regex grps stk =
      Except.ok (rl2, regex2, grps2, stk2) →
    grps = rl.tokenTypeIDs.map RegexGroup.token →
    rl.useFallbackErrorRule = true →
    grps2 = rl2.tokenTypeIDs.map RegexGroup.token ∧
      rl2.useFallbackErrorRule = true := by
  intro rules
  induction rules with
  | nil =>
    intro rl regex grps stk rl2 regex2 grps2 stk2 h hg hf
    simp only [compileRules, Except.ok.injEq, Prod.mk.injEq] at h
    obtain ⟨rfl, rfl, rfl, rfl⟩ := h
    exact ⟨hg, hf⟩
  | cons r rest ih =>
    intro rl regex grps stk rl2 regex2 grps2 stk2 h hg hf
    simp only [compileRules] at h
    rcases hc : collectRegex g (g.grammarTable.length + 2) "" r stk false with
      ⟨ok, regstr, stk1⟩
    cases ok
    · simp only [hc] at h
      exact ih rl regex grps stk1 rl2 regex2 grps2 stk2 h hg hf
    · simp only [hc] at h
      by_cases hmem : r.id ∈ regexSpecTagIds g
      · rw [if_pos hmem] at h
        simp only [regexIgnoreProcess, if_pos rfl] at h
        refine ih _ _ _ _ _ _ _ _ h ?_ ?_
        · simpa using hg
        · simpa using hf
      · rw [if_neg hmem] at h
        refine ih _ _ _ _ _ _ _ _ h ?_ ?_
        · simp [hg]
        · simpa using hf

/-- The lexer classifies a group index that is neither the whitespace nor
the error index as a token group via `tokenTypeIDs` (lexer.cpp:303, 320-321,
331). -/
lemma classifyGroup_token (rl : RegLexData) (k : Nat)
    (h1 : ¬k = rl.spaceRuleIndex) (h2 : ¬k = rl.errorRuleIndex) :
    classifyGroup rl k = RegexGroup.token (rl.tokenTypeIDs.getD k 0) := by
  unfold classifyGroup
  rw [if_neg h1, if_neg (by simp [h2])]

/-- The lexer classifies the error index as the error group when the
fallback rule is enabled. -/
lemma classifyGroup_error_eq (rl : RegLexData) (k : Nat)
    (h1 : ¬k = rl.spaceRuleIndex) (hf : rl.useFallbackErrorRule = true)
    (h2 : k = rl.errorRuleIndex) :
    classifyGroup rl k = RegexGroup.error := by
  unfold classifyGroup
  rw [if_neg h1, if_pos (by simp [hf, h2])]

/-- C7: in every compiled lexicon, `tokenTypeIDs[i]` is the tag id of
capture group `i+1` of the master pattern (group 0 being the whole match):
the assembled top-level groups are exactly the token groups in
`tokenTypeIDs` order followed by the whitespace group and the fallback
error group — the last two groups, in that order — `spaceRuleIndex` is the
number of token groups, `errorRuleIndex = spaceRuleIndex + 1`, and the
lexer's group classification (whitespace check, then error check, then
`tokenTypeIDs[i-1]` lookup) agrees with this mapping on every group. -/
theorem c7_group_index_mapping (g : GbnfData) (rl : RegLexData)
    (grps : List RegexGroup)
    (h : checkAndAssignLexicProperties g = Except.ok (rl, grps)) :
    rl.spaceRuleIndex = rl.tokenTypeIDs.length ∧
    rl.errorRuleIndex = rl.spaceRuleIndex + 1 ∧
    grps = rl.tokenTypeIDs.map RegexGroup.token ++
      [RegexGroup.space, RegexGroup.error] ∧
    (∀ k, k < rl.tokenTypeIDs.length →
      classifyGroup rl k = RegexGroup.token (rl.tokenTypeIDs.getD k 0)) ∧
    classifyGroup rl rl.spaceRuleIndex = RegexGroup.space ∧
    classifyGroup rl rl.errorRuleIndex = RegexGroup.error := by
  simp only [checkAndAssignLexicProperties] at h
  rcases hc : compileRules g g.grammarTable {} "" [] [] with
    e | ⟨rl0, regex0, grps0, stk0⟩
  · rw [hc] at h
    cases h
  · simp only [hc] at h
    obtain ⟨hg0, hf0⟩ := compileRules_groups g g.grammarTable {} "" [] []
      rl0 regex0 grps0 stk0 hc rfl rfl
    simp only [Except.ok.injEq, Prod.mk.injEq] at h
    obtain ⟨rfl, rfl⟩ := h
    refine ⟨by simp, by simp, ?_, ?_, ?_, ?_⟩
    · rw [hg0]
      simp
    · intro k hk
      have hk2 : k < rl0.tokenTypeIDs.length := hk
      exact classifyGroup_token _ k
        (show ¬k = rl0.tokenTypeIDs.length by omega)
        (show ¬k = rl0.tokenTypeIDs.length + 1 by omega)
    · exact if_pos rfl
    · exact classifyGroup_error_eq _ _
        (show ¬rl0.tokenTypeIDs.length + 1 = rl0.tokenTypeIDs.length by omega)
        (show rl0.useFallbackErrorRule = true from hf0) rfl

/-- C7 witness: the compiled Scenario A lexicon. -/
theorem c7_group_index_mapping_witness :
    scenarioARegLex.spaceRuleIndex = scenarioARegLex.tokenTypeIDs.length ∧
    scenarioARegLex.errorRuleIndex = scenarioARegLex.spaceRuleIndex + 1 ∧
    scenarioAGroups = scenarioARegLex.tokenTypeIDs.map RegexGroup.token ++
      [RegexGroup.space, RegexGroup.error] ∧
    (∀ k, k < scenarioARegLex.tokenTypeIDs.length →
      classifyGroup scenarioARegLex k =
        RegexGroup.token (scenarioARegLex.tokenTypeIDs.getD k 0)) ∧
    classifyGroup scenarioARegLex scenarioARegLex.spaceRuleIndex =
      RegexGroup.space ∧
    classifyGroup scenarioARegLex scenarioARegLex.errorRuleIndex =
      RegexGroup.error :=
  c7_group_index_mapping scenarioAGbnf scenarioARegLex scenarioAGroups (by rfl)

end Grylang
